import Mathlib

/-!
Verification of the pre-commit hook execution engine against its source:
`pre_commit/git_adapter.py` (dual-mode version-control/filesystem adapter and
filesystem tree walker) and `pre_commit/commands/run.py` (classifier and hook
orchestrator).

The Python code is shallowly embedded: pure functions become Lean functions,
object state (the classifier's memo cache, the working tree) is passed
explicitly, Python exceptions become an `Except PyErr` result, and the
external collaborators (the `git` module, `re.search`, `tags_from_path`,
`os.path.lexists`, `parse_gitignore`, the SHA-384 digest) are parameters of
the embedding: the code under verification never inspects their internals.
-/

namespace PreCommit

/-- Python exceptions raised by the embedded code: `NotImplementedError` from
the adapter's real-VCS-only operations, and `TypeError` from a call that
passes a keyword argument the callee does not accept. -/
inductive PyErr where
  | notImplementedError
  | typeError
deriving DecidableEq

/-- Model of a directory tree for `os.walk` (`followlinks=False`, so the tree
has no links): a node is a plain file or a directory with named children. -/
inductive FSEntry where
  | file (name : String)
  | dir (name : String) (children : List FSEntry)

/-- Model of `os.path.join` for the paths the walker builds. -/
def fsJoin (a b : String) : String := a ++ "/" ++ b

/-- Subdirectory entries of a directory listing, in order: the `dirnames` of
one `os.walk` triple, paired with their children. -/
def subdirEntries (children : List FSEntry) : List (String × List FSEntry) :=
  children.filterMap fun e =>
    match e with
    | FSEntry.dir n ch => some (n, ch)
    | FSEntry.file _ => none

/-- Plain-file entries of a directory listing, in order: the `filenames` of
one `os.walk` triple. -/
def fileEntries (children : List FSEntry) : List String :=
  children.filterMap fun e =>
    match e with
    | FSEntry.file n => some n
    | FSEntry.dir _ _ => none

/-- Embeds `_prune_directory_list` (git_adapter.py lines 19-27): with
`prunedirs is None` the directory list is untouched; otherwise every name
that occurs in `prunedirs` is deleted. The Python mutates `dirnames` in
place; the embedding returns the pruned list. -/
def prune_keep (prunedirs : Option (List String)) (d : String) : Bool :=
  match prunedirs with
  | none => true
  | some pd => !pd.contains d

/-- The pruned directory list (see `prune_keep`). -/
def prune_directory_list (dirnames : List String) (prunedirs : Option (List String)) :
    List String :=
  dirnames.filter (prune_keep prunedirs)

/-- Embeds `_exclusive_or` (git_adapter.py lines 30-34). -/
def exclusive_or (a b : Bool) : Bool :=
  (!a && b) || (a && !b)

/-- Embeds `_ignore_pathname` (git_adapter.py lines 37-38). The walker always
builds its pathnames from the given root, which the embedding takes to be
absolute, so `os.path.abspath` is the identity here. -/
def ignore_pathname (pathname : String) (ignore_func : String → Bool) (invert : Bool) :
    Bool :=
  exclusive_or invert (ignore_func pathname)

/-- Candidates contributed by one `os.walk` triple in `_list_filesystem_tree`
(git_adapter.py lines 60-67): the pruned directory names (if `dirs`) followed
by the file names (if `files`), each joined onto the directory's path, and
each kept only when `_ignore_pathname` rejects it. -/
def walk_level (gitignore_matches : String → Bool) (invert : Bool)
    (dirs files : Bool) (prunedirs : Option (List String))
    (path : String) (children : List FSEntry) : List String :=
  let dirnames := prune_directory_list ((subdirEntries children).map Prod.fst) prunedirs
  ((if dirs then dirnames.map (fun d => fsJoin path d) else []) ++
   (if files then (fileEntries children).map (fun f => fsJoin path f) else [])).filter
    (fun x => !(ignore_pathname x gitignore_matches invert))

/-- Depth-first traversal below one directory, in `os.walk(topdown=True)`
order: each subdirectory that survived pruning contributes its own level's
candidates and then its own subtree, left to right. Pruned directories are
removed from traversal entirely. -/
def walk_subdirs (gitignore_matches : String → Bool) (invert : Bool)
    (dirs files : Bool) (prunedirs : Option (List String)) :
    String → List FSEntry → List String
  | _, [] => []
  | path, FSEntry.file _ :: rest =>
      walk_subdirs gitignore_matches invert dirs files prunedirs path rest
  | path, FSEntry.dir n ch :: rest =>
      (if prune_keep prunedirs n then
        walk_level gitignore_matches invert dirs files prunedirs (fsJoin path n) ch ++
          walk_subdirs gitignore_matches invert dirs files prunedirs (fsJoin path n) ch
      else []) ++
        walk_subdirs gitignore_matches invert dirs files prunedirs path rest

/-- Embeds `_list_filesystem_tree` (git_adapter.py lines 41-70).
The filesystem below `root` is the explicit tree `fsChildren`; the parsed
ignore file (`parse_gitignore` is an external library) is modelled as the
matcher it would return, so the parameter `ignorefile` is `none` exactly when
the Python argument is `None`.  When `ignorefile is None` the code forces
`invert = False` and uses a matcher that returns `False` for every path.
With `sort`, the collected pathnames are sorted (Python `list.sort`,
lexicographic). -/
def list_filesystem_tree (fsChildren : List FSEntry) (root : String)
    (dirs : Bool) (files : Bool) (ignorefile : Option (String → Bool))
    (invert : Bool) (prunedirs : Option (List String)) (sort : Bool) : List String :=
  let gi : (String → Bool) × Bool :=
    match ignorefile with
    | some matcher => (matcher, invert)
    | none => (fun _ => false, false)
  let all_pathnames :=
    walk_level gi.1 gi.2 dirs files prunedirs root fsChildren ++
      walk_subdirs gi.1 gi.2 dirs files prunedirs root fsChildren
  if sort then all_pathnames.mergeSort (fun a b => decide (a ≤ b)) else all_pathnames

/-- Parameter names of `_list_filesystem_tree` (git_adapter.py lines 41-49). -/
def list_filesystem_tree_params : List String :=
  ["root", "dirs", "files", "ignorefile", "invert", "prunedirs", "sort"]

/-- Keyword-argument names used at the call site inside `get_all_files`
(git_adapter.py lines 141-145): the call is
`_list_filesystem_tree(self.root, ignorefile=…, ignoredirs=…)`. -/
def get_all_files_call_kwargs : List String :=
  ["ignorefile", "ignoredirs"]

/-- Python call semantics: a call is accepted only when every keyword-argument
name is a parameter name of the callee; otherwise Python raises `TypeError`
("got an unexpected keyword argument") before the callee's body runs. -/
def kwargs_accepted (params kwargs : List String) : Bool :=
  kwargs.all (fun k => params.contains k)

/-- Result of `_diff_dicts`: the three key lists of the structured diff. -/
structure DiffDict where
  added : List String
  removed : List String
  changed : List String
deriving DecidableEq

/-- Python `key in dict`, for a dict modelled as an association list with
unique keys. -/
def dictContains (d : List (String × String)) (k : String) : Bool :=
  (d.lookup k).isSome

/-- Embeds `_diff_dicts` (git_adapter.py lines 82-96).  The single Python
pass over `dict1.items()` appends to `removed_keys` and `changed_keys` in
iteration order; the second pass over `dict2` appends to `added_keys`; these
are exactly the three order-preserving filters below. -/
def diff_dicts (dict1 dict2 : List (String × String)) : DiffDict :=
  { removed := (dict1.filter (fun kv => !dictContains dict2 kv.1)).map Prod.fst
  , changed := (dict1.filter (fun kv =>
      match dict2.lookup kv.1 with
      | some v2 => decide (kv.2 ≠ v2)
      | none => false)).map Prod.fst
  , added := (dict2.filter (fun kv => !dictContains dict1 kv.1)).map Prod.fst }

/-- Behaviour of the external `pre_commit.git` module (real version control)
plus the pieces of the outside world the adapter reads.  Every field is the
value the corresponding `git.*` call would return; the embedded adapter only
decides when to delegate to them. -/
structure GitState where
  root_dir : String
  git_dir : String → String
  remote_url : String → String
  in_merge_conflict : Bool
  merge_msg_conflicts : String → List String
  conflicted_files : List String
  staged_files : List String
  all_files : List String
  changed_files : String → String → List String
  head_rev : String → String
  unmerged_paths : Bool
  unstaged_config : String → Bool
  intent_to_add : List String
  commit_result : String → String
  git_path : String → String → String
  has_diff : Bool
  fsTree : List FSEntry
  gitignore_matcher : String → Bool

/-- Embeds the `GitAdapter` constructor (git_adapter.py lines 99-104). -/
structure GitAdapter where
  without_git : Bool
  root : String

/-- Embeds `GitAdapter.get_root` (git_adapter.py lines 106-107). -/
def GitAdapter.get_root (a : GitAdapter) (g : GitState) : String :=
  if a.without_git then a.root else g.root_dir

/-- Embeds `GitAdapter.get_git_dir` (git_adapter.py lines 109-112): raises
`NotImplementedError` in filesystem-only mode, else delegates. -/
def GitAdapter.get_git_dir (a : GitAdapter) (g : GitState) (git_root : String) :
    Except PyErr String :=
  if a.without_git then Except.error PyErr.notImplementedError
  else Except.ok (g.git_dir git_root)

/-- Embeds `GitAdapter.get_remote_url` (git_adapter.py lines 114-117). -/
def GitAdapter.get_remote_url (a : GitAdapter) (g : GitState) (git_root : String) :
    Except PyErr String :=
  if a.without_git then Except.error PyErr.notImplementedError
  else Except.ok (g.remote_url git_root)

/-- Embeds `GitAdapter.is_in_merge_conflict` (git_adapter.py lines 119-120). -/
def GitAdapter.is_in_merge_conflict (a : GitAdapter) (g : GitState) : Bool :=
  if a.without_git then false else g.in_merge_conflict

/-- Embeds `GitAdapter.parse_merge_msg_for_conflicts` (lines 122-123). -/
def GitAdapter.parse_merge_msg_for_conflicts (a : GitAdapter) (g : GitState)
    (merge_msg : String) : List String :=
  if a.without_git then [] else g.merge_msg_conflicts merge_msg

/-- Embeds `GitAdapter.get_conflicted_files` (git_adapter.py lines 125-126);
the Python returns a set, modelled as its list of members. -/
def GitAdapter.get_conflicted_files (a : GitAdapter) (g : GitState) : List String :=
  if a.without_git then [] else g.conflicted_files

/-- Embeds `GitAdapter.get_staged_files` (git_adapter.py lines 128-130). -/
def GitAdapter.get_staged_files (a : GitAdapter) (g : GitState) : List String :=
  if a.without_git then [] else g.staged_files

/-- Embeds `GitAdapter.intent_to_add_files` (git_adapter.py lines 132-135). -/
def GitAdapter.intent_to_add_files (a : GitAdapter) (g : GitState) :
    Except PyErr (List String) :=
  if a.without_git then Except.error PyErr.notImplementedError
  else Except.ok g.intent_to_add

/-- Embeds `GitAdapter.get_all_files` (git_adapter.py lines 137-146).  In
filesystem-only mode the source runs
`_list_filesystem_tree(self.root, ignorefile=…, ignoredirs=…)`; the name
`ignoredirs` is not among `_list_filesystem_tree`'s parameters (its pruning
parameter is named `prunedirs`), so under Python call semantics the call
raises `TypeError` before the walk begins.  The `.ok` branch below is
therefore unreachable; it is written with the walker's defaults and no
binding for the rejected keyword. -/
def GitAdapter.get_all_files (a : GitAdapter) (g : GitState) :
    Except PyErr (List String) :=
  if a.without_git then
    if kwargs_accepted list_filesystem_tree_params get_all_files_call_kwargs then
      Except.ok (list_filesystem_tree g.fsTree a.root false true
        (some g.gitignore_matcher) false none true)
    else Except.error PyErr.typeError
  else Except.ok g.all_files

/-- Embeds `GitAdapter.get_changed_files` (git_adapter.py lines 148-150). -/
def GitAdapter.get_changed_files (a : GitAdapter) (g : GitState) (new old : String) :
    List String :=
  if a.without_git then [] else g.changed_files new old

/-- Embeds `GitAdapter.head_rev` (git_adapter.py lines 171-174), exactly as
written: the guard is `if not self.without_git: raise NotImplementedError`,
so the real-VCS mode raises and the filesystem-only mode delegates to
`git.head_rev`. -/
def GitAdapter.head_rev (a : GitAdapter) (g : GitState) (remote : String) :
    Except PyErr String :=
  if !a.without_git then Except.error PyErr.notImplementedError
  else Except.ok (g.head_rev remote)

/-- Embeds `GitAdapter.has_diff` (git_adapter.py lines 176-177): `0` in
filesystem-only mode, else the backend's answer (as `0`/`1`). -/
def GitAdapter.has_diff (a : GitAdapter) (g : GitState) : Nat :=
  if a.without_git then 0 else (if g.has_diff then 1 else 0)

/-- Embeds the filesystem-mode body of `GitAdapter.has_checkpointed_diff`
(git_adapter.py lines 179-187): the stored checkpoint digest map and the
fresh `get_diff()` digest map are compared with `_diff_dicts`, and the result
is `True` iff any of the three key lists is non-empty. -/
def has_checkpointed_diff (checkpoint current : List (String × String)) : Bool :=
  let diff_dict := diff_dicts checkpoint current
  decide (diff_dict.added.length > 0) || decide (diff_dict.removed.length > 0) ||
    decide (diff_dict.changed.length > 0)

/-- Embeds `GitAdapter.has_unmerged_paths` (git_adapter.py lines 189-190). -/
def GitAdapter.has_unmerged_paths (a : GitAdapter) (g : GitState) : Bool :=
  if a.without_git then false else g.unmerged_paths

/-- Embeds `GitAdapter.has_unstaged_config` (git_adapter.py lines 192-193). -/
def GitAdapter.has_unstaged_config (a : GitAdapter) (g : GitState)
    (config_file : String) : Bool :=
  if a.without_git then false else g.unstaged_config config_file

/-- Embeds `GitAdapter.commit` (git_adapter.py lines 195-198). -/
def GitAdapter.commit (a : GitAdapter) (g : GitState) (repo : String) :
    Except PyErr String :=
  if a.without_git then Except.error PyErr.notImplementedError
  else Except.ok (g.commit_result repo)

/-- Embeds `GitAdapter.git_path` (git_adapter.py lines 200-203). -/
def GitAdapter.git_path (a : GitAdapter) (g : GitState) (name repo : String) :
    Except PyErr String :=
  if a.without_git then Except.error PyErr.notImplementedError
  else Except.ok (g.git_path name repo)

/-- Embeds `GitAdapter.set_diff_checkpoint` (git_adapter.py lines 157-159).
In filesystem-only mode the checkpoint is `get_diff()`, which is
`_hash_files(self.get_all_files())`; computing it therefore starts with
`get_all_files`, whose failure propagates (digesting itself is the external
SHA-384 and never fails here).  In real-VCS mode the method does nothing. -/
def set_diff_checkpoint (a : GitAdapter) (g : GitState) : Except PyErr Unit :=
  if a.without_git then
    match GitAdapter.get_all_files a g with
    | Except.error e => Except.error e
    | Except.ok _ => Except.ok ()
  else Except.ok ()

/-- A configured hook as the orchestrator consumes it (supplied read-only by
the external config/installer layer): identity, filtering rules, execution
flags and eligible stages.  The Python attribute `alias` is named
`hook_alias` because `alias` is a Lean keyword. -/
structure Hook where
  id : String
  hook_alias : String
  name : String
  files : String
  exclude : String
  types : List String
  exclude_types : List String
  always_run : Bool
  pass_filenames : Bool
  verbose : Bool
  language : String
  src : String
  log_file : String
  stages : List String
deriving DecidableEq

/-- The invocation capability of a hook, `hook.run(filenames)`, returning
`(exit_code, stdout_bytes, stderr_bytes)`.  Running a hook may also modify
the working tree, so the capability acts on the abstract tree state `σ`. -/
structure HookBehavior (σ : Type) where
  run : List String → σ → (Nat × List Nat × List Nat) × σ

/-- The run arguments (`args`) consumed by `run.py`.  Python `None`/empty
defaults follow Python truthiness: a ref or hook filter is absent iff it is
the empty string, the explicit file list is absent iff it is empty. -/
structure RunArgs where
  hook : String
  hook_stage : String
  files : List String
  all_files : Bool
  origin : String
  source : String
  verbose : Bool
  color : Bool
  show_diff_on_failure : Bool
  without_git : Bool
  root : String
  commit_msg_filename : String
deriving DecidableEq

/-- The pieces of the loaded configuration this core reads. -/
structure RunConfig where
  exclude : String
  fail_fast : Bool
deriving DecidableEq

/-- Python truthiness of a string: non-empty. -/
def truthy (s : String) : Bool := s != ""

/-- Observable outcome of `_run_single_hook` for one hook: the returned
code, whether the hook's `run` capability was actually called, the final
status word written for the hook line (`Skipped`, `Passed` or `Failed`), and
whether the `(no files to check)` note accompanied it. -/
structure HookResult where
  retcode : Nat
  invoked : Bool
  endMsg : String
  noFilesNote : Bool
deriving DecidableEq

/-- Embeds `filter_by_include_exclude` (run.py lines 25-31).  The compiled
regular expressions are external (`re` module); `search pat s` is the truth
value of `re.compile(pat).search(s)`. -/
def filter_by_include_exclude (search : String → String → Bool)
    (names : List String) (includePat excludePat : String) : List String :=
  names.filter (fun filename =>
    search includePat filename && !search excludePat filename)

/-- State of a `Classifier` instance (run.py lines 34-37): the filenames kept
by the symlink-aware existence check done once at construction, and the
memo cache `_types_cache`, a dict filename to tags. -/
structure Classifier where
  filenames : List String
  types_cache : List (String × List String)

/-- Embeds `Classifier.__init__` (run.py lines 35-37); `lexists` is the
external `os.path.lexists`. -/
def Classifier.init (lexists : String → Bool) (filenames : List String) : Classifier :=
  { filenames := filenames.filter lexists, types_cache := [] }

/-- Embeds `Classifier._types_for_file` (run.py lines 39-44): a cache hit
returns the stored tags; a miss calls the external classification oracle
`tags_from_path` once and stores the result.  Besides the tags and the new
state, the embedding returns the list of oracle invocations this call made,
so that call counts are observable. -/
def types_for_file (oracle : String → List String) (c : Classifier)
    (filename : String) : List String × Classifier × List String :=
  match c.types_cache.lookup filename with
  | some tags => (tags, c, [])
  | none =>
    let ret := oracle filename
    (ret, { c with types_cache := (filename, ret) :: c.types_cache }, [filename])

/-- Embeds `Classifier.by_types` (run.py lines 46-53): a filename is kept iff
its tag set contains every required type and meets no excluded type.  The
frozensets are modelled by membership on the lists.  Threads the cache and
collects the oracle invocations. -/
def by_types (oracle : String → List String) (c : Classifier)
    (types exclude_types : List String) :
    List String → List String × Classifier × List String
  | [] => ([], c, [])
  | filename :: rest =>
    let step := types_for_file oracle c filename
    let tags := step.1
    let keep := types.all (fun t => tags.contains t) &&
      !(exclude_types.any (fun t => tags.contains t))
    let restRes := by_types oracle step.2.1 types exclude_types rest
    ((if keep then [filename] else []) ++ restRes.1, restRes.2.1,
      step.2.2 ++ restRes.2.2)

/-- Embeds `Classifier.filenames_for_hook` (run.py lines 55-59). -/
def filenames_for_hook (search : String → String → Bool)
    (oracle : String → List String) (c : Classifier) (hook : Hook) :
    List String × Classifier × List String :=
  let names := c.filenames
  let names := filter_by_include_exclude search names hook.files hook.exclude
  by_types oracle c hook.types hook.exclude_types names

/-- Observation of a classifier instance answering a sequence of tag
lookups, threading the memo cache; returns the per-query results, the final
state, and the concatenated oracle-invocation log. -/
def run_type_queries (oracle : String → List String) (c : Classifier) :
    List String → List (List String) × Classifier × List String
  | [] => ([], c, [])
  | filename :: rest =>
    let step := types_for_file oracle c filename
    let restRes := run_type_queries oracle step.2.1 rest
    (step.1 :: restRes.1, restRes.2.1, step.2.2 ++ restRes.2.2)

/-- Splits a character list at every occurrence of `c` (Python
`str.split(sep)` semantics: `"".split(',') == ['']`, separators are not
merged). -/
def splitOnCharAux (c : Char) : List Char → List Char → List (List Char)
  | [], acc => [acc.reverse]
  | x :: xs, acc =>
    if x = c then acc.reverse :: splitOnCharAux c xs []
    else splitOnCharAux c xs (x :: acc)

/-- See `splitOnCharAux`. -/
def splitOnChar (c : Char) (l : List Char) : List (List Char) :=
  splitOnCharAux c l []

/-- Python `str.strip()`: drop whitespace from both ends. -/
def trimChars (l : List Char) : List Char :=
  ((l.dropWhile Char.isWhitespace).reverse.dropWhile Char.isWhitespace).reverse

/-- Embeds `_get_skips` (run.py lines 62-64): read `SKIP` from the
environment (default empty), split on commas, strip each piece, drop the
empty ones.  The Python builds a set; the embedding keeps the pieces as a
list and uses it only through membership. -/
def get_skips (environ : List (String × String)) : List String :=
  let skips := (environ.lookup "SKIP").getD ""
  ((splitOnChar ',' skips.data).map (fun cs => String.mk (trimChars cs))).filter
    (fun s => s ≠ "")

/-- The constant `SKIPPED` (run.py line 71). -/
def SKIPPED : String := "Skipped"

/-- The constant `NO_FILES` (run.py line 72). -/
def NO_FILES : String := "(no files to check)"

/-- Embeds `_hook_msg_start` (run.py lines 67-68). -/
def hook_msg_start (hook : Hook) (verbose : Bool) : String :=
  (if verbose then "[" ++ hook.id ++ "] " else "") ++ hook.name

/-- Embeds `_compute_cols` (run.py lines 166-182). -/
def compute_cols (hooks : List Hook) (verbose : Bool) : Nat :=
  let name_len :=
    if hooks.isEmpty then 0
    else (hooks.map (fun h => (hook_msg_start h verbose).length)).foldl max 0
  max (name_len + 3 + NO_FILES.length + 1 + SKIPPED.length) 80

/-- Embeds `_run_single_hook` (run.py lines 75-163).  The working tree is
the abstract state `σ`; `getDiff` is what `git_shim.get_diff()` observes of
it (backend-native diff text or digest map, compared only for equality, per
run.py line 125; in filesystem-only mode that call inherits
`get_all_files`'s failure and control never reaches this loop, see
`set_diff_checkpoint` and `run_hooks`).  Output formatting (`output.write`,
`get_hook_message`, colors, `cols`, the deprecation warning for `pcre`, and
the stdout/stderr echo) is external rendering; the observable status word
and note are recorded in the `HookResult`.  Returns the result, the updated
classifier cache, and the tree state after the hook. -/
def run_single_hook {σ D : Type} [DecidableEq D] (getDiff : σ → D)
    (search : String → String → Bool) (oracle : String → List String)
    (c : Classifier) (hook : Hook) (hb : HookBehavior σ) (args : RunArgs)
    (skips : List String) (cols : Nat) (w : σ) : HookResult × Classifier × σ :=
  let cls := filenames_for_hook search oracle c hook
  let filenames := cls.1
  let c := cls.2.1
  if skips.contains hook.id || skips.contains hook.hook_alias then
    ({ retcode := 0, invoked := false, endMsg := SKIPPED, noFilesNote := false }, c, w)
  else if filenames.isEmpty && !hook.always_run then
    ({ retcode := 0, invoked := false, endMsg := SKIPPED, noFilesNote := true }, c, w)
  else
    let diff_before := getDiff w
    let invocation := hb.run (if hook.pass_filenames then filenames else []) w
    let retcode0 := invocation.1.1
    let w := invocation.2
    let diff_after := getDiff w
    let file_modifications := decide (diff_before ≠ diff_after)
    let retcode1 := if file_modifications then 1 else retcode0
    let retcode := if retcode1 ≠ 0 then 1 else 0
    ({ retcode := retcode, invoked := true,
       endMsg := if retcode1 ≠ 0 then "Failed" else "Passed",
       noFilesNote := false }, c, w)

/-- Embeds the hook loop of `_run_hooks` (run.py lines 208-212):
`retval |= _run_single_hook(…)` then `if retval and config['fail_fast']:
break`.  Threads the classifier cache and tree state, and records the
`HookResult` of every loop iteration actually executed, in order. -/
def run_hooks_loop {σ D : Type} [DecidableEq D] (getDiff : σ → D)
    (search : String → String → Bool) (oracle : String → List String)
    (args : RunArgs) (skips : List String) (cols : Nat) (fail_fast : Bool) :
    List (Hook × HookBehavior σ) → Classifier → σ → Nat →
      Nat × List HookResult × Classifier × σ
  | [], c, w, retval => (retval, [], c, w)
  | hook :: rest, c, w, retval =>
    let r := run_single_hook getDiff search oracle c hook.1 hook.2 args skips cols w
    let retval := retval ||| r.1.retcode
    if retval != 0 && fail_fast then
      (retval, [r.1], r.2.1, r.2.2)
    else
      let restRes := run_hooks_loop getDiff search oracle args skips cols fail_fast
        rest r.2.1 r.2.2 retval
      (restRes.1, r.1 :: restRes.2.1, restRes.2.2)

/-- Embeds `_all_filenames` (run.py lines 185-197): the priority cascade
selecting the global candidate file set.  `get_all_files` can raise (see
its embedding), so the result is an `Except`. -/
def all_filenames (a : GitAdapter) (g : GitState) (args : RunArgs) :
    Except PyErr (List String) :=
  if truthy args.origin && truthy args.source then
    Except.ok (GitAdapter.get_changed_files a g args.origin args.source)
  else if args.hook_stage == "prepare-commit-msg" || args.hook_stage == "commit-msg" then
    Except.ok [args.commit_msg_filename]
  else if !args.files.isEmpty then
    Except.ok args.files
  else if args.all_files then
    GitAdapter.get_all_files a g
  else if GitAdapter.is_in_merge_conflict a g then
    Except.ok (GitAdapter.get_conflicted_files a g)
  else
    Except.ok (GitAdapter.get_staged_files a g)

/-- Modelled from the spec: the claimed priority order of candidate
resolution, written from the claim's words — the origin/source range diff
when both refs are supplied; else the commit-message file when the run stage
is a message-editing stage (`prepare-commit-msg` or `commit-msg`); else the
explicit file list when non-empty; else all files when the all-files flag is
set; else the conflicted files when in a merge conflict; else the currently
staged files. -/
def all_filenames_spec (a : GitAdapter) (g : GitState) (args : RunArgs) :
    Except PyErr (List String) :=
  if truthy args.origin && truthy args.source then
    Except.ok (GitAdapter.get_changed_files a g args.origin args.source)
  else if args.hook_stage == "prepare-commit-msg" || args.hook_stage == "commit-msg" then
    Except.ok [args.commit_msg_filename]
  else if !args.files.isEmpty then
    Except.ok args.files
  else if args.all_files then
    GitAdapter.get_all_files a g
  else if GitAdapter.is_in_merge_conflict a g then
    Except.ok (GitAdapter.get_conflicted_files a g)
  else
    Except.ok (GitAdapter.get_staged_files a g)

/-- Embeds `_run_hooks` (run.py lines 200-226): checkpoint, skips, column
width, candidate resolution, global exclude filter, one shared classifier,
then the hook loop.  The final `show_diff_on_failure` block only prints (the
cumulative diff rendering is external output) and does not change the
returned value.  Returns the aggregated retval, the per-iteration results
and the final tree state. -/
def run_hooks {σ D : Type} [DecidableEq D] (getDiff : σ → D)
    (search : String → String → Bool) (oracle : String → List String)
    (lexists : String → Bool) (a : GitAdapter) (g : GitState)
    (config : RunConfig) (hooks : List (Hook × HookBehavior σ))
    (args : RunArgs) (environ : List (String × String)) (w : σ) :
    Except PyErr (Nat × List HookResult × σ) :=
  match set_diff_checkpoint a g with
  | Except.error e => Except.error e
  | Except.ok _ =>
    match all_filenames a g args with
    | Except.error e => Except.error e
    | Except.ok filenames0 =>
      let skips := get_skips environ
      let cols := compute_cols (hooks.map Prod.fst) args.verbose
      let filenames := filter_by_include_exclude search filenames0 "" config.exclude
      let c := Classifier.init lexists filenames
      let r := run_hooks_loop getDiff search oracle args skips cols config.fail_fast
        hooks c w 0
      Except.ok (r.1, r.2.1, r.2.2.2)

/-- Embeds `run` (run.py lines 229-272): adapter construction, the three
preflight checks, the origin/source environment exposure, hook selection by
id/alias and stage, the `No hook with id` early exit, then `_run_hooks`.
The scoped stash context, `load_config`, `all_hooks` and
`install_hook_envs` are external collaborators: the loaded `config` and the
ready hooks (with their invocation behaviours) are parameters.  Returns the
exit code, the per-hook results of the loop (empty when no hook ran), and
the final tree state. -/
def run {σ D : Type} [DecidableEq D] (getDiff : σ → D)
    (search : String → String → Bool) (oracle : String → List String)
    (lexists : String → Bool) (config_file : String) (args : RunArgs)
    (g : GitState) (environ : List (String × String))
    (hooksAll : List (Hook × HookBehavior σ)) (config : RunConfig) (w : σ) :
    Except PyErr (Nat × List HookResult × σ) :=
  let git_shim : GitAdapter := { without_git := args.without_git, root := args.root }
  let no_stash := args.all_files || !args.files.isEmpty
  if GitAdapter.has_unmerged_paths git_shim g then
    Except.ok (1, [], w)
  else if truthy args.source != truthy args.origin then
    Except.ok (1, [], w)
  else if GitAdapter.has_unstaged_config git_shim g config_file && !no_stash then
    Except.ok (1, [], w)
  else
    let environ :=
      if truthy args.origin && truthy args.source then
        ("PRE_COMMIT_ORIGIN", args.origin) :: ("PRE_COMMIT_SOURCE", args.source) :: environ
      else environ
    let hooks := hooksAll.filter (fun hook =>
      (!truthy args.hook || hook.1.id == args.hook || hook.1.hook_alias == args.hook) &&
        hook.1.stages.contains args.hook_stage)
    if truthy args.hook && hooks.isEmpty then
      Except.ok (1, [], w)
    else
      run_hooks getDiff search oracle lexists git_shim g config hooks args environ w

/-- Correctness of the classifier's memo cache for a given oracle: every
stored entry is the oracle's answer for its key. -/
def cache_correct (oracle : String → List String) (c : Classifier) : Prop :=
  ∀ kv ∈ c.types_cache, kv.2 = oracle kv.1

/-- A hook configuration used for concrete evaluations: applies to all
files, always runs, passes filenames. -/
def witnessHook : Hook :=
  { id := "modify", hook_alias := "", name := "modify", files := "", exclude := "^$",
    types := [], exclude_types := [], always_run := true, pass_filenames := true,
    verbose := false, language := "system", src := ".", log_file := "",
    stages := ["commit"] }

/-- A hook behaviour over tree state `Nat` that exits 0 but increments the
tree state, i.e. rewrites the working tree. -/
def modifyBehavior : HookBehavior Nat :=
  { run := fun _ w => ((0, [], []), w + 1) }

/-- A hook behaviour that exits 1 and leaves the tree unchanged. -/
def failBehavior : HookBehavior Nat :=
  { run := fun _ w => ((1, [], []), w) }

/-- Baseline run arguments used for concrete evaluations. -/
def witnessArgs : RunArgs :=
  { hook := "", hook_stage := "commit", files := [], all_files := false, origin := "",
    source := "", verbose := false, color := false, show_diff_on_failure := false,
    without_git := false, root := ".", commit_msg_filename := "" }

/-- Run arguments where only the origin ref was supplied. -/
def argsOriginOnly : RunArgs :=
  { witnessArgs with origin := "refs/x" }

/-- A quiescent external git backend used for concrete evaluations. -/
def gStub : GitState :=
  { root_dir := "/r", git_dir := fun _ => "/r/.git", remote_url := fun _ => "",
    in_merge_conflict := false, merge_msg_conflicts := fun _ => [],
    conflicted_files := [], staged_files := [], all_files := [],
    changed_files := fun _ _ => [], head_rev := fun _ => "", unmerged_paths := false,
    unstaged_config := fun _ => false, intent_to_add := [],
    commit_result := fun _ => "", git_path := fun _ _ => "", has_diff := false,
    fsTree := [], gitignore_matcher := fun _ => false }

/-- A second hook for multi-hook runs. -/
def secondHook : Hook :=
  { witnessHook with id := "second", name := "second" }

/-- A two-hook sequence whose first hook fails. -/
def ffHooks : List (Hook × HookBehavior Nat) :=
  [(witnessHook, failBehavior), (secondHook, modifyBehavior)]

/-- A configuration with `fail_fast = true`. -/
def ffConfig : RunConfig :=
  { exclude := "^$", fail_fast := true }

theorem lookup_isSome_iff_mem {β : Type} {d : List (String × β)} {k : String} :
    (d.lookup k).isSome = true ↔ ∃ v, (k, v) ∈ d := by
  induction d with
  | nil => simp [List.lookup]
  | cons kv rest ih =>
    obtain ⟨a, b⟩ := kv
    rcases hba : (k == a) with _ | _
    · have hne : k ≠ a := by simpa using hba
      simp [List.lookup_cons, hba, ih, Prod.ext_iff, hne]
    · have heq : k = a := by simpa using hba
      subst heq
      simp [List.lookup_cons, hba]

theorem mem_of_lookup_eq_some {β : Type} {d : List (String × β)} {k : String} {v : β}
    (h : d.lookup k = some v) : (k, v) ∈ d := by
  induction d with
  | nil => simp [List.lookup] at h
  | cons kv rest ih =>
    obtain ⟨a, b⟩ := kv
    rcases hba : (k == a) with _ | _
    · simp only [List.lookup_cons, hba] at h
      exact List.mem_cons_of_mem _ (ih h)
    · have heq : k = a := by simpa using hba
      simp only [List.lookup_cons, hba] at h
      subst heq
      cases h
      exact List.mem_cons_self _ _

theorem lookup_eq_some_iff_mem {β : Type} {d : List (String × β)} {k : String} {v : β}
    (hnd : (d.map Prod.fst).Nodup) : d.lookup k = some v ↔ (k, v) ∈ d := by
  constructor
  · exact mem_of_lookup_eq_some
  · intro hmem
    induction d with
    | nil => simp at hmem
    | cons kv rest ih =>
      obtain ⟨a, b⟩ := kv
      simp only [List.map_cons, List.nodup_cons] at hnd
      rcases List.mem_cons.mp hmem with h | h
      · cases h
        simp [List.lookup_cons]
      · have hne : k ≠ a := by
          intro heq
          subst heq
          exact hnd.1 (List.mem_map.mpr ⟨(k, v), h, rfl⟩)
        have hba : (k == a) = false := by simpa using hne
        simp only [List.lookup_cons, hba]
        exact ih hnd.2 h

/-- C6: in filesystem-only mode, for any two digest-mapping snapshots
compared by the diff protocol (`_diff_dicts` of the stored checkpoint and a
fresh `get_diff()`): a key is in `added` iff it is present only in the
second snapshot, in `removed` iff present only in the first, in `changed`
iff present in both with different digests — so no other key appears in any
of the three lists — and `has_checkpointed_diff` reports `True` iff at
least one of the three lists is non-empty.  The two snapshots are Python
dicts, hence have unique keys. -/
theorem diff_protocol_classifies_keys (d1 d2 : List (String × String))
    (hnd1 : (d1.map Prod.fst).Nodup) (hnd2 : (d2.map Prod.fst).Nodup) :
    (∀ k, k ∈ (diff_dicts d1 d2).added ↔
      ((d2.lookup k).isSome ∧ d1.lookup k = none))
    ∧ (∀ k, k ∈ (diff_dicts d1 d2).removed ↔
      ((d1.lookup k).isSome ∧ d2.lookup k = none))
    ∧ (∀ k, k ∈ (diff_dicts d1 d2).changed ↔
      (∃ v1 v2, d1.lookup k = some v1 ∧ d2.lookup k = some v2 ∧ v1 ≠ v2))
    ∧ (has_checkpointed_diff d1 d2 = true ↔
      ¬((diff_dicts d1 d2).added = [] ∧ (diff_dicts d1 d2).removed = []
        ∧ (diff_dicts d1 d2).changed = [])) := by
  refine ⟨?_, ?_, ?_, ?_⟩
  · intro k
    simp only [diff_dicts, List.mem_map, List.mem_filter, dictContains]
    constructor
    · rintro ⟨⟨a, b⟩, ⟨hmem, hnone⟩, rfl⟩
      refine ⟨lookup_isSome_iff_mem.mpr ⟨b, hmem⟩, ?_⟩
      simpa [Option.isNone_iff_eq_none, Option.not_isSome] using hnone
    · rintro ⟨hsome, hnone⟩
      obtain ⟨v, hv⟩ := lookup_isSome_iff_mem.mp hsome
      exact ⟨(k, v), ⟨hv, by simp [hnone]⟩, rfl⟩
  · intro k
    simp only [diff_dicts, List.mem_map, List.mem_filter, dictContains]
    constructor
    · rintro ⟨⟨a, b⟩, ⟨hmem, hnone⟩, rfl⟩
      refine ⟨lookup_isSome_iff_mem.mpr ⟨b, hmem⟩, ?_⟩
      simpa [Option.isNone_iff_eq_none, Option.not_isSome] using hnone
    · rintro ⟨hsome, hnone⟩
      obtain ⟨v, hv⟩ := lookup_isSome_iff_mem.mp hsome
      exact ⟨(k, v), ⟨hv, by simp [hnone]⟩, rfl⟩
  · intro k
    simp only [diff_dicts, List.mem_map, List.mem_filter]
    constructor
    · rintro ⟨⟨a, b⟩, ⟨hmem, hcond⟩, rfl⟩
      show ∃ v1 v2, d1.lookup a = some v1 ∧ d2.lookup a = some v2 ∧ v1 ≠ v2
      rcases hd2 : d2.lookup a with _ | v2
      · rw [hd2] at hcond
        simp at hcond
      · refine ⟨b, v2, (lookup_eq_some_iff_mem hnd1).mpr hmem, rfl, ?_⟩
        rw [hd2] at hcond
        simpa using hcond
    · rintro ⟨v1, v2, h1, h2, hne⟩
      exact ⟨(k, v1), ⟨mem_of_lookup_eq_some h1, by simp [h2, hne]⟩, rfl⟩
  · simp only [has_checkpointed_diff, Bool.or_eq_true, decide_eq_true_eq,
      List.length_pos]
    tauto

/-- Closed instance for `diff_protocol_classifies_keys`: with checkpoint
`a → 1, b → 2` and current snapshot `a → 9, c → 3`, key `c` is classified
as added, `b` as removed, `a` as changed, and the protocol reports a diff. -/
theorem diff_protocol_classifies_keys_witness :
    "c" ∈ (diff_dicts [("a", "1"), ("b", "2")] [("a", "9"), ("c", "3")]).added
    ∧ "b" ∈ (diff_dicts [("a", "1"), ("b", "2")] [("a", "9"), ("c", "3")]).removed
    ∧ "a" ∈ (diff_dicts [("a", "1"), ("b", "2")] [("a", "9"), ("c", "3")]).changed
    ∧ has_checkpointed_diff [("a", "1"), ("b", "2")] [("a", "9"), ("c", "3")] = true := by
  have h := diff_protocol_classifies_keys [("a", "1"), ("b", "2")]
    [("a", "9"), ("c", "3")] (by decide) (by decide)
  refine ⟨(h.1 "c").mpr (by decide), (h.2.1 "b").mpr (by decide),
    (h.2.2.1 "a").mpr ⟨"1", "9", by decide, by decide, by decide⟩,
    (h.2.2.2).mpr ?_⟩
  intro hall
  exact absurd hall.1 (by decide)

/-- C2 (divergence witness): the mode guard of `head_rev` is inverted
relative to every other real-VCS-only operation — in real-VCS mode
(`without_git = False`) it raises `NotImplementedError`, and in
filesystem-only mode it delegates to the `git` backend instead of failing
with the unsupported-in-mode error. -/
theorem head_rev_mode_guard_inverted (g : GitState) (root remote : String) :
    GitAdapter.head_rev { without_git := false, root := root } g remote =
        Except.error PyErr.notImplementedError
      ∧ GitAdapter.head_rev { without_git := true, root := root } g remote =
        Except.ok (g.head_rev remote) :=
  ⟨rfl, rfl⟩

/-- C3 (divergence witness): in filesystem-only mode `get_all_files` never
returns a file list — the call it makes passes the keyword `ignoredirs`,
which `_list_filesystem_tree` does not accept (its parameter is
`prunedirs`), so a `TypeError` is raised for every adapter and root. -/
theorem get_all_files_filesystem_mode_raises_type_error (g : GitState) (root : String) :
    GitAdapter.get_all_files { without_git := true, root := root } g =
      Except.error PyErr.typeError := rfl

/-- C10: when `_list_filesystem_tree` is given no ignore-file, the inversion
flag has no effect (the result for any `invert` equals the result for
`invert = False`), the ignore predicate matches nothing, and the per-level
candidate filter keeps every visited path — the walker does not return the
empty set that inverting an empty match would imply. -/
theorem walker_without_ignorefile_keeps_every_path (fsChildren : List FSEntry)
    (root : String) (dirs files invert : Bool) (prunedirs : Option (List String))
    (sort : Bool) :
    list_filesystem_tree fsChildren root dirs files none invert prunedirs sort =
      list_filesystem_tree fsChildren root dirs files none false prunedirs sort
    ∧ (∀ x, ignore_pathname x (fun _ => false) false = false)
    ∧ (∀ l : List String,
        l.filter (fun x => !ignore_pathname x (fun _ => false) false) = l) :=
  ⟨rfl, fun _ => rfl, fun l => by simp [ignore_pathname, exclusive_or]⟩

/-- C1: for every hook invocation actually performed by `_run_single_hook`
(the hook was not skipped), if the diff snapshot taken immediately before
the hook's run differs from the one taken immediately after, the recorded
result is failure (1) — irrespective of the hook's own exit code, which is
universally quantified inside `hb`. -/
theorem modified_tree_forces_hook_failure {σ D : Type} [DecidableEq D]
    (getDiff : σ → D) (search : String → String → Bool)
    (oracle : String → List String) (c : Classifier) (hook : Hook)
    (hb : HookBehavior σ) (args : RunArgs) (skips : List String) (cols : Nat)
    (w : σ)
    (hinv : (run_single_hook getDiff search oracle c hook hb args skips cols w).1.invoked
      = true)
    (hdiff : getDiff w ≠
      getDiff (run_single_hook getDiff search oracle c hook hb args skips cols w).2.2) :
    (run_single_hook getDiff search oracle c hook hb args skips cols w).1.retcode = 1 := by
  cases h1 : (skips.contains hook.id || skips.contains hook.hook_alias) with
  | true =>
    simp only [run_single_hook, h1] at hinv
    simp at hinv
  | false =>
    cases h2 : ((filenames_for_hook search oracle c hook).1.isEmpty && !hook.always_run) with
    | true =>
      simp only [run_single_hook, h1, h2] at hinv
      simp at hinv
    | false =>
      simp only [run_single_hook, h1, h2] at hdiff ⊢
      simp only [Bool.false_eq_true, if_false] at hdiff ⊢
      simp [hdiff]

/-- Closed instance for `modified_tree_forces_hook_failure`: a hook that
exits 0 but changes the tree state from 0 to 1 is recorded as failing. -/
theorem modified_tree_forces_hook_failure_witness :
    (run_single_hook (id : Nat → Nat) (fun _ _ => true) (fun _ => [])
      (Classifier.init (fun _ => true) []) witnessHook modifyBehavior witnessArgs
      [] 80 0).1.retcode = 1 :=
  modified_tree_forces_hook_failure (id : Nat → Nat) (fun _ _ => true) (fun _ => [])
    (Classifier.init (fun _ => true) []) witnessHook modifyBehavior witnessArgs
    [] 80 0 (by decide) (by decide)

/-- C7: a hook whose id or alias belongs to the skip set derived from the
comma-separated `SKIP` environment variable is reported `Skipped` with
result 0 (success), its `run` capability is never called, and the working
tree is untouched. -/
theorem skip_listed_hook_reports_skipped_success {σ D : Type} [DecidableEq D]
    (getDiff : σ → D) (search : String → String → Bool)
    (oracle : String → List String) (c : Classifier) (hook : Hook)
    (hb : HookBehavior σ) (args : RunArgs) (environ : List (String × String))
    (cols : Nat) (w : σ)
    (h : hook.id ∈ get_skips environ ∨ hook.hook_alias ∈ get_skips environ) :
    (run_single_hook getDiff search oracle c hook hb args (get_skips environ) cols w).1 =
      { retcode := 0, invoked := false, endMsg := SKIPPED, noFilesNote := false }
    ∧ (run_single_hook getDiff search oracle c hook hb args (get_skips environ) cols w).2.2
      = w := by
  have hc : ((get_skips environ).contains hook.id ||
      (get_skips environ).contains hook.hook_alias) = true := by
    show ((get_skips environ).elem hook.id || (get_skips environ).elem hook.hook_alias)
      = true
    simp only [Bool.or_eq_true, List.elem_iff]
    exact h
  constructor <;> (simp only [run_single_hook, hc]; simp)

/-- Closed instance for `skip_listed_hook_reports_skipped_success`: with
`SKIP="modify, other"`, the hook with id `modify` is skipped, reports
success, and leaves the tree state 0 unchanged. -/
theorem skip_listed_hook_reports_skipped_success_witness :
    (run_single_hook (id : Nat → Nat) (fun _ _ => true) (fun _ => [])
      (Classifier.init (fun _ => true) []) witnessHook modifyBehavior witnessArgs
      (get_skips [("SKIP", "modify, other")]) 80 0).1 =
      { retcode := 0, invoked := false, endMsg := SKIPPED, noFilesNote := false }
    ∧ (run_single_hook (id : Nat → Nat) (fun _ _ => true) (fun _ => [])
      (Classifier.init (fun _ => true) []) witnessHook modifyBehavior witnessArgs
      (get_skips [("SKIP", "modify, other")]) 80 0).2.2 = 0 :=
  skip_listed_hook_reports_skipped_success (id : Nat → Nat) (fun _ _ => true)
    (fun _ => []) (Classifier.init (fun _ => true) []) witnessHook modifyBehavior
    witnessArgs [("SKIP", "modify, other")] 80 0 (Or.inl (by decide))

theorem types_for_file_correct (oracle : String → List String) (c : Classifier)
    (f : String) (hc : cache_correct oracle c) :
    (types_for_file oracle c f).1 = oracle f
    ∧ cache_correct oracle (types_for_file oracle c f).2.1 := by
  unfold types_for_file
  rcases hl : c.types_cache.lookup f with _ | tags
  · refine ⟨rfl, ?_⟩
    intro kv hkv
    rcases List.mem_cons.mp hkv with h | h
    · subst h; rfl
    · exact hc kv h
  · refine ⟨?_, hc⟩
    show tags = oracle f
    exact hc (f, tags) (mem_of_lookup_eq_some hl)

theorem run_type_queries_results (oracle : String → List String) (qs : List String) :
    ∀ c : Classifier, cache_correct oracle c →
      (run_type_queries oracle c qs).1 = qs.map oracle
      ∧ cache_correct oracle (run_type_queries oracle c qs).2.1 := by
  induction qs with
  | nil => intro c hc; exact ⟨rfl, hc⟩
  | cons f rest ih =>
    intro c hc
    have h1 := types_for_file_correct oracle c f hc
    have h2 := ih (types_for_file oracle c f).2.1 h1.2
    simp only [run_type_queries, List.map_cons]
    exact ⟨by rw [h1.1, h2.1], h2.2⟩

theorem run_type_queries_calls (oracle : String → List String) (f : String)
    (qs : List String) :
    ∀ c : Classifier, (run_type_queries oracle c qs).2.2.count f ≤
      (if (c.types_cache.lookup f).isSome then 0 else 1) := by
  induction qs with
  | nil => intro c; simp [run_type_queries]
  | cons q rest ih =>
    intro c
    simp only [run_type_queries]
    rcases hl : c.types_cache.lookup q with _ | tags
    · simp only [types_for_file, hl]
      by_cases hqf : q = f
      · subst hqf
        have hnew := ih { c with types_cache := (q, oracle q) :: c.types_cache }
        have hsome : (((q, oracle q) :: c.types_cache).lookup q).isSome = true := by
          simp [List.lookup_cons]
        rw [hsome] at hnew
        simp only [if_true] at hnew
        simp only [List.singleton_append, List.count_cons_self]
        rw [hl]
        simp only [Option.isSome_none, Bool.false_eq_true, if_false]
        omega
      · have hnew := ih { c with types_cache := (q, oracle q) :: c.types_cache }
        have hkeep : (((q, oracle q) :: c.types_cache).lookup f) = c.types_cache.lookup f := by
          have hba : (f == q) = false := by simpa using hqf ∘ Eq.symm ∘ fun h => h
          simp [List.lookup_cons, hba]
        rw [hkeep] at hnew
        have hcnt : (([q] ++ (run_type_queries oracle
            { c with types_cache := (q, oracle q) :: c.types_cache } rest).2.2).count f)
            = (run_type_queries oracle
              { c with types_cache := (q, oracle q) :: c.types_cache } rest).2.2.count f := by
          simp [List.count_cons, Ne.symm hqf]
        rw [hcnt]
        exact hnew
    · simp only [types_for_file, hl, List.nil_append]
      exact ih c

/-- C9: within one run, tag lookups on the shared classifier are memoized —
the answer to every query is the oracle's answer for that filename (so any
two queries for the same filename return identical tag sets), and the
underlying classification oracle `tags_from_path` is invoked at most once
per filename over any query sequence. -/
theorem classifier_tag_lookup_memoized (oracle : String → List String)
    (lexists : String → Bool) (filenames qs : List String) :
    (run_type_queries oracle (Classifier.init lexists filenames) qs).1 = qs.map oracle
    ∧ (∀ i j : Nat, qs[i]? = qs[j]? →
        (run_type_queries oracle (Classifier.init lexists filenames) qs).1[i]? =
          (run_type_queries oracle (Classifier.init lexists filenames) qs).1[j]?)
    ∧ (∀ f : String,
        (run_type_queries oracle (Classifier.init lexists filenames) qs).2.2.count f ≤ 1) := by
  have hc0 : cache_correct oracle (Classifier.init lexists filenames) := by
    intro kv hkv
    simp [Classifier.init] at hkv
  have hres := run_type_queries_results oracle qs (Classifier.init lexists filenames) hc0
  refine ⟨hres.1, ?_, ?_⟩
  · intro i j hij
    rw [hres.1, List.getElem?_map, List.getElem?_map, hij]
  · intro f
    have hcalls := run_type_queries_calls oracle f qs (Classifier.init lexists filenames)
    have hnone : ((Classifier.init lexists filenames).types_cache.lookup f) = none := rfl
    rw [hnone] at hcalls
    simpa using hcalls

/-- Closed instance for `classifier_tag_lookup_memoized`: querying `a.py`
twice yields the same tags and at most one oracle invocation for `a.py`. -/
theorem classifier_tag_lookup_memoized_witness :
    (run_type_queries (fun _ => ["text"]) (Classifier.init (fun _ => true) [])
        ["a.py", "a.py"]).1[0]? =
      (run_type_queries (fun _ => ["text"]) (Classifier.init (fun _ => true) [])
        ["a.py", "a.py"]).1[1]?
    ∧ (run_type_queries (fun _ => ["text"]) (Classifier.init (fun _ => true) [])
        ["a.py", "a.py"]).2.2.count "a.py" ≤ 1 :=
  ⟨(classifier_tag_lookup_memoized (fun _ => ["text"]) (fun _ => true) []
      ["a.py", "a.py"]).2.1 0 1 rfl,
    (classifier_tag_lookup_memoized (fun _ => ["text"]) (fun _ => true) []
      ["a.py", "a.py"]).2.2 "a.py"⟩

/-- C5: for every combination of run arguments and adapter state, the
global candidate file set is resolved by `_all_filenames` in exactly the
claimed priority order, stated as the spec-modelled cascade
`all_filenames_spec`. -/
theorem candidate_resolution_priority_order (a : GitAdapter) (g : GitState)
    (args : RunArgs) : all_filenames a g args = all_filenames_spec a g args := rfl

/-- C4: whenever a precondition violation holds at the start of `run` —
unmerged paths exist, or exactly one of the origin/source refs was
supplied, or the configuration file has unstaged changes while neither an
explicit file list nor all-files mode was given — the run returns exit
code 1, zero hooks are executed, and the tree is untouched. -/
theorem preflight_violation_returns_one_no_hooks {σ D : Type} [DecidableEq D]
    (getDiff : σ → D) (search : String → String → Bool)
    (oracle : String → List String) (lexists : String → Bool)
    (config_file : String) (args : RunArgs) (g : GitState)
    (environ : List (String × String)) (hooksAll : List (Hook × HookBehavior σ))
    (config : RunConfig) (w : σ)
    (h : GitAdapter.has_unmerged_paths
        { without_git := args.without_git, root := args.root } g = true
      ∨ truthy args.source ≠ truthy args.origin
      ∨ (GitAdapter.has_unstaged_config
          { without_git := args.without_git, root := args.root } g config_file = true
        ∧ args.all_files = false ∧ args.files = [])) :
    run getDiff search oracle lexists config_file args g environ hooksAll config w =
      Except.ok (1, [], w) := by
  by_cases h1 : GitAdapter.has_unmerged_paths
      { without_git := args.without_git, root := args.root } g = true
  · simp [run, h1]
  · have h1f : GitAdapter.has_unmerged_paths
        { without_git := args.without_git, root := args.root } g = false := by
      simpa using h1
    by_cases h2 : truthy args.source = truthy args.origin
    · rcases h with h | h | h
      · exact absurd h h1
      · exact absurd h2 h
      · have hb : (truthy args.source != truthy args.origin) = false := by
          simp [h2]
        simp [run, h1f, hb, h.1, h.2.1, h.2.2]
    · have hb : (truthy args.source != truthy args.origin) = true := by
        simpa using h2
      simp [run, h1f, hb]

/-- Closed instance for `preflight_violation_returns_one_no_hooks`: a run
where only the origin ref was supplied aborts with code 1 and an empty
result list. -/
theorem preflight_violation_returns_one_no_hooks_witness :
    run (id : Nat → Nat) (fun _ _ => true) (fun _ => []) (fun _ => true)
      ".pre-commit-config.yaml" argsOriginOnly gStub [] [] ffConfig 0 =
      Except.ok (1, [], 0) :=
  preflight_violation_returns_one_no_hooks (id : Nat → Nat) (fun _ _ => true)
    (fun _ => []) (fun _ => true) ".pre-commit-config.yaml" argsOriginOnly gStub
    [] [] ffConfig 0 (Or.inr (Or.inl (by decide)))

theorem lor_ne_zero_right (x y : Nat) (h : y ≠ 0) : x ||| y ≠ 0 := by
  intro hc
  apply h
  apply Nat.eq_of_testBit_eq
  intro i
  have hx := congrArg (fun n => Nat.testBit n i) hc
  simp [Nat.testBit_lor] at hx
  simp [hx.2]

theorem lor_eq_zero_right {x y : Nat} (h : x ||| y = 0) : y = 0 := by
  by_contra hy
  exact lor_ne_zero_right x y hy h

theorem run_hooks_loop_length_le {σ D : Type} [DecidableEq D] (getDiff : σ → D)
    (search : String → String → Bool) (oracle : String → List String)
    (args : RunArgs) (skips : List String) (cols : Nat) (fail_fast : Bool) :
    ∀ (hooks : List (Hook × HookBehavior σ)) (c : Classifier) (w : σ) (retval : Nat),
      (run_hooks_loop getDiff search oracle args skips cols fail_fast
        hooks c w retval).2.1.length ≤ hooks.length := by
  intro hooks
  induction hooks with
  | nil => intro c w retval; simp [run_hooks_loop]
  | cons hook rest ih =>
    intro c w retval
    simp only [run_hooks_loop]
    split
    · simp
    · have := ih (run_single_hook getDiff search oracle c hook.1 hook.2 args skips cols w).2.1
        (run_single_hook getDiff search oracle c hook.1 hook.2 args skips cols w).2.2
        (retval ||| (run_single_hook getDiff search oracle c hook.1 hook.2 args skips cols w).1.retcode)
      simpa using this

theorem run_hooks_loop_fail_fast {σ D : Type} [DecidableEq D] (getDiff : σ → D)
    (search : String → String → Bool) (oracle : String → List String)
    (args : RunArgs) (skips : List String) (cols : Nat) :
    ∀ (hooks : List (Hook × HookBehavior σ)) (c : Classifier) (w : σ) (retval : Nat)
      (i : Nat) (r : HookResult),
      (run_hooks_loop getDiff search oracle args skips cols true
        hooks c w retval).2.1[i]? = some r →
      r.retcode ≠ 0 →
      (run_hooks_loop getDiff search oracle args skips cols true
        hooks c w retval).2.1.length = i + 1 := by
  intro hooks
  induction hooks with
  | nil =>
    intro c w retval i r hsome
    simp [run_hooks_loop] at hsome
  | cons hook rest ih =>
    intro c w retval i r hsome hfail
    simp only [run_hooks_loop] at hsome ⊢
    by_cases h0 : (retval |||
        (run_single_hook getDiff search oracle c hook.1 hook.2 args skips cols w).1.retcode) = 0
    · have hcond : ¬((((retval |||
          (run_single_hook getDiff search oracle c hook.1 hook.2 args skips cols w).1.retcode)
          != 0) && true) = true) := by simp [h0]
      rw [if_neg hcond] at hsome ⊢
      rcases i with _ | j
      · simp only [List.getElem?_cons_zero, Option.some_inj] at hsome
        exact absurd (lor_eq_zero_right h0) (hsome ▸ hfail)
      · simp only [List.getElem?_cons_succ] at hsome
        have := ih (run_single_hook getDiff search oracle c hook.1 hook.2 args skips cols w).2.1
          (run_single_hook getDiff search oracle c hook.1 hook.2 args skips cols w).2.2
          (retval ||| (run_single_hook getDiff search oracle c hook.1 hook.2 args skips cols w).1.retcode)
          j r hsome hfail
        simp [this]
    · have hcond : ((((retval |||
          (run_single_hook getDiff search oracle c hook.1 hook.2 args skips cols w).1.retcode)
          != 0) && true) = true) := by simpa using h0
      rw [if_pos hcond] at hsome ⊢
      rcases i with _ | j
      · rfl
      · simp at hsome

/-- C8: with `fail_fast = true` in the configuration, once some hook's
result in `_run_hooks` is failure, no hook later in the configured order is
processed in that run — the recorded results stop right after the failing
hook, and never exceed the hook list. -/
theorem fail_fast_halts_after_failure {σ D : Type} [DecidableEq D]
    (getDiff : σ → D) (search : String → String → Bool)
    (oracle : String → List String) (lexists : String → Bool) (a : GitAdapter)
    (g : GitState) (config : RunConfig) (hooks : List (Hook × HookBehavior σ))
    (args : RunArgs) (environ : List (String × String)) (w : σ) (retval : Nat)
    (results : List HookResult) (w' : σ)
    (hff : config.fail_fast = true)
    (hrun : run_hooks getDiff search oracle lexists a g config hooks args environ w =
      Except.ok (retval, results, w'))
    (i : Nat) (r : HookResult) (hsome : results[i]? = some r)
    (hfail : r.retcode ≠ 0) :
    results.length = i + 1 ∧ results.length ≤ hooks.length := by
  unfold run_hooks at hrun
  rcases h1 : set_diff_checkpoint a g with e | u
  · rw [h1] at hrun
    cases hrun
  · rw [h1] at hrun
    rcases h2 : all_filenames a g args with e | filenames0
    · rw [h2] at hrun
      cases hrun
    · rw [h2] at hrun
      rw [hff] at hrun
      injection hrun with hrun
      have hres : results = (run_hooks_loop getDiff search oracle args
          (get_skips environ) (compute_cols (hooks.map Prod.fst) args.verbose) true hooks
          (Classifier.init lexists (filter_by_include_exclude search filenames0 "" config.exclude))
          w 0).2.1 := by
        have := congrArg (fun p => p.2.1) hrun
        exact this.symm
      subst hres
      exact ⟨run_hooks_loop_fail_fast getDiff search oracle args (get_skips environ)
          (compute_cols (hooks.map Prod.fst) args.verbose) hooks _ w 0 i r hsome hfail,
        run_hooks_loop_length_le getDiff search oracle args (get_skips environ)
          (compute_cols (hooks.map Prod.fst) args.verbose) true hooks _ w 0⟩

/-- Closed instance for `fail_fast_halts_after_failure`: of the two
configured hooks the first fails, and with `fail_fast` only that one result
is recorded. -/
theorem fail_fast_halts_after_failure_witness :
    ([{ retcode := 1, invoked := true, endMsg := "Failed", noFilesNote := false }] :
      List HookResult).length = 0 + 1
    ∧ ([{ retcode := 1, invoked := true, endMsg := "Failed", noFilesNote := false }] :
      List HookResult).length ≤ ffHooks.length :=
  fail_fast_halts_after_failure (id : Nat → Nat) (fun _ _ => true) (fun _ => [])
    (fun _ => true) { without_git := false, root := "." } gStub ffConfig ffHooks
    witnessArgs [] 0 1
    [{ retcode := 1, invoked := true, endMsg := "Failed", noFilesNote := false }] 0
    rfl (by rfl) 0 { retcode := 1, invoked := true, endMsg := "Failed", noFilesNote := false }
    rfl (by decide)

end PreCommit
